import Mathlib

/-!
Verification of the Chambolle-Pock total-variation denoising example
(`examples/solvers/chambolle_pock_preconditioner_denoising.py`).

The example script configures and runs ODL's Chambolle-Pock primal-dual
solver twice (without and with a diagonal dual preconditioner) on a TV
denoising problem with operator `K = BroadcastOperator(identity, gradient)`.
The solver, the proximal-operator factories and the power-method norm
estimator live in the ODL library, outside this repository's example file;
they are modelled here from the specification's contracts.  Vectors are
modelled as lists of rationals (an exact stand-in for the finite-dimensional
real vectors of the script), stacked dual vectors as lists of blocks.
-/

namespace CPDenoise

/-- Elementwise addition of two vectors. -/
def vadd (a b : List ℚ) : List ℚ := List.zipWith (· + ·) a b

/-- Elementwise subtraction of two vectors. -/
def vsub (a b : List ℚ) : List ℚ := List.zipWith (· - ·) a b

/-- Scalar multiplication of a vector. -/
def vsmul (c : ℚ) (a : List ℚ) : List ℚ := a.map (fun t => c * t)

/-- Squared Euclidean norm of a vector (sum of squares of the entries). -/
def normSq (a : List ℚ) : ℚ := (a.map (fun t => t ^ 2)).sum

/-- Modelled from the spec: `odl.Gradient(space, method='forward')` restricted
to one spatial axis — the forward-difference operator with zero padding past
the right boundary: `(grad x)_i = x_(i+1) - x_i`, with `x_n = 0`. -/
def gradientOp : List ℚ → List ℚ
  | [] => []
  | [a] => [0 - a]
  | a :: b :: rest => (b - a) :: gradientOp (b :: rest)

/-- Modelled from the spec: the adjoint of the forward-difference operator,
`(grad* y)_i = y_(i-1) - y_i` with `y_(-1) = 0`. -/
def gradientAdj (y : List ℚ) : List ℚ := List.zipWith (· - ·) (0 :: y) y

/-- Modelled from the spec: `odl.solvers.combine_proximals` — given a list of
proximal operators it returns a single proximal operator on the direct-sum
space, applying each `p_i` independently to its corresponding block. -/
def combine_proximals (ps : List (List ℚ → ℚ → List ℚ))
    (blocks : List (List ℚ)) (step : ℚ) : List (List ℚ) :=
  List.zipWith (fun p b => p b step) ps blocks

/-- Modelled from the spec: `odl.solvers.proximal_nonnegativity(space)` — the
proximal operator of the indicator of the non-negative cone; it clips
negative entries to zero, independently of the step size. -/
def proximal_nonnegativity (x : List ℚ) (step : ℚ) : List ℚ :=
  x.map (fun t => max t 0)

/-- Modelled from the spec: `odl.solvers.proximal_convexconjugate_l2(space, g)`
— the proximal operator of the convex conjugate of the l2 data-fit term
`F(x) = ||x - g||^2 / 2`, which is `y ↦ (y - step * g) / (1 + step)`
elementwise. -/
def prox_convconj_l2 (g : List ℚ) (y : List ℚ) (step : ℚ) : List ℚ :=
  List.zipWith (fun yi gi => (yi - step * gi) / (1 + step)) y g

/-- Modelled from the spec: `odl.solvers.proximal_convexconjugate_l1(space, lam)`
restricted to a scalar field — the pointwise projection onto the ball of
radius `lam`, here the interval `[-lam, lam]`. -/
def prox_convconj_l1 (lam : ℚ) (y : List ℚ) (step : ℚ) : List ℚ :=
  y.map (fun yi => max (-lam) (min lam yi))

/-- Explicit vector-space operations, as supplied by the operator library:
addition, subtraction, scalar multiplication and the zero vector. -/
structure VecOps (V : Type) where
  add : V → V → V
  sub : V → V → V
  smul : ℚ → V → V
  zero : V

/-- Iteration state of the solver: primal iterate `x`, dual iterate `y` and
the over-relaxed auxiliary primal iterate `xbar`. -/
structure CPState (X Y : Type) where
  x : X
  y : Y
  xbar : X

/-- One Chambolle-Pock problem instance: the operator `K` with its adjoint,
the dual scaling (the scalar `sigma` or, when supplied, the dual
preconditioner), the step sizes and the two proximal operators. -/
structure CPProblem (X Y : Type) where
  XOps : VecOps X
  YOps : VecOps Y
  K : X → Y
  Kadj : Y → X
  dualScale : Y → Y
  tau : ℚ
  sigma : ℚ
  proxPrimal : X → ℚ → X
  proxDual : Y → ℚ → Y

/-- Modelled from the spec: one iteration of `odl.solvers.chambolle_pock_solver`.
Dual update `y ← prox_dual(y + (sigma or preconditioner_dual)(K x_bar), step=sigma)`,
primal update `x_new ← prox_primal(x - tau * K^T y, step=tau)`, over-relaxation
`x_bar ← x_new + 1 * (x_new - x)`, then `x ← x_new`. -/
def cpStep {X Y : Type} (P : CPProblem X Y) (s : CPState X Y) : CPState X Y :=
  let yNew := P.proxDual (P.YOps.add s.y (P.dualScale (P.K s.xbar))) P.sigma
  let xNew := P.proxPrimal (P.XOps.sub s.x (P.XOps.smul P.tau (P.Kadj yNew))) P.tau
  ⟨xNew, yNew, P.XOps.add xNew (P.XOps.smul 1 (P.XOps.sub xNew s.x))⟩

/-- Modelled from the spec: the solver's initial state — `y = 0` in the dual
space, `x = x0`, `x_bar = x0`. -/
def cpInit {X Y : Type} (P : CPProblem X Y) (x0 : X) : CPState X Y :=
  ⟨x0, P.YOps.zero, x0⟩

/-- Modelled from the spec: the solver's main loop — exactly `n` iterations of
`cpStep`, with no convergence-based early stop. -/
def cpRun {X Y : Type} (P : CPProblem X Y) (s : CPState X Y) : Nat → CPState X Y
  | 0 => s
  | n + 1 => cpRun P (cpStep P s) n

/-- Modelled from the spec: `odl.solvers.chambolle_pock_solver` — run `n`
iterations from the initial state and return the final primal iterate. -/
def chambolle_pock_solver {X Y : Type} (P : CPProblem X Y) (x0 : X) (n : Nat) : X :=
  (cpRun P (cpInit P x0) n).x

/-- Modelled from the spec: the solver's main loop with an instrumentation
callback (the script's `odl.solvers.StorePartial`): after each iteration the
callback value at the current primal iterate is appended to a log; the
callback never writes to the solver state. -/
def cpRunLog {X Y A : Type} (P : CPProblem X Y) (f : X → A) :
    CPState X Y → List A → Nat → CPState X Y × List A
  | s, acc, 0 => (s, acc)
  | s, acc, n + 1 => cpRunLog P f (cpStep P s) (acc ++ [f (cpStep P s).x]) n

/-- Modelled from the spec: the solver invoked with a callback — returns the
final primal iterate together with the accumulated per-iteration log. -/
def chambolle_pock_solver_logged {X Y A : Type} (P : CPProblem X Y) (f : X → A)
    (x0 : X) (n : Nat) : X × List A :=
  ((cpRunLog P f (cpInit P x0) [] n).1.x, (cpRunLog P f (cpInit P x0) [] n).2)

/-- Modelled from the spec: the power-iteration loop of
`odl.power_method_opnorm` — each iteration maps `v` to
`op.adjoint(op(v))` normalized by its norm. -/
def powerIter {V W : Type} (ops : VecOps V) (ap : V → W) (adj : W → V)
    (nrmV : V → ℚ) : V → Nat → V
  | v, 0 => v
  | v, n + 1 => powerIter ops ap adj nrmV
      (ops.smul (1 / nrmV (adj (ap v))) (adj (ap v))) n

/-- Modelled from the spec: `odl.power_method_opnorm(op, niter, start)` — run
the power iteration for `n` iterations from `start` and return the norm
estimate `||op v|| / ||v||` at the final vector (the norms of the two spaces
are supplied by the caller, standing in for the library's Hilbert norms). -/
def power_method_opnorm {V W : Type} (ops : VecOps V) (ap : V → W) (adj : W → V)
    (nrmV : V → ℚ) (nrmW : W → ℚ) (n : Nat) (start : V) : ℚ :=
  nrmW (ap (powerIter ops ap adj nrmV start n)) / nrmV (powerIter ops ap adj nrmV start n)

/-- The script's fixed identity operator norm (`op_norm_identity = 1.0`,
line 100 of the example). -/
def op_norm_identity : ℚ := 1

/-- The script's unpreconditioned step size: `tau = sigma = 1.0 / op_norm`
with `op_norm = op_norm_identity + op_norm_gradient` (lines 114-115). -/
def tauOf (opNormGradient : ℚ) : ℚ := 1 / (op_norm_identity + opNormGradient)

/-- Squared norm of `K = BroadcastOperator(identity, gradient)` in terms of
the gradient's operator norm: `||K x||^2 = ||x||^2 + ||grad x||^2`, so
`||K||^2 = 1 + ||grad||^2`. -/
def KnormSq (gradNorm : ℚ) : ℚ := 1 + gradNorm ^ 2

/-- Squared norm of `preconditioner_dual^(1/2) (K x)` for the script's
preconditioner `DiagonalOperator(I, 1/op_norm_gradient^2 * I)`
(lines 130-133): the identity block is left unscaled and the gradient block
is scaled by `1/L` (so its square by `1/L^2`). -/
def preconKnormSq (L : ℚ) (x : List ℚ) : ℚ :=
  normSq x + (1 / L ^ 2) * normSq (gradientOp x)

/-- The preconditioned step-size constraint of the spec and of the code
comment at line 135, `||preconditioner_dual^(1/2) * K * tau^(1/2)||^2 * sigma < 1`,
stated in Rayleigh-quotient form: for every nonzero `x` the quotient
`tau * sigma * ||P^(1/2) K x||^2 / ||x||^2` is below `1`.  The operator-norm
form implies this form, so refuting this form refutes the constraint. -/
def preconStepConstraint (L tau sigma : ℚ) : Prop :=
  ∀ x : List ℚ, normSq x ≠ 0 → tau * sigma * preconKnormSq L x < normSq x

/-- Vector operations on length-`n` vectors of rationals. -/
def listOps (n : Nat) : VecOps (List ℚ) :=
  ⟨vadd, vsub, vsmul, List.replicate n 0⟩

/-- Vector operations on the direct sum `space × gradient.range`, with
stacked vectors represented as two-element lists of blocks of length `n`. -/
def stackOps (n : Nat) : VecOps (List (List ℚ)) :=
  ⟨List.zipWith vadd, List.zipWith vsub, fun c => List.map (vsmul c),
   [List.replicate n 0, List.replicate n 0]⟩

/-- The script's operator `op = BroadcastOperator(IdentityOperator(space),
gradient)` (line 77): it stacks the identity block and the gradient block. -/
def Kbroadcast (x : List ℚ) : List (List ℚ) := [x, gradientOp x]

/-- Adjoint of the broadcast operator: sums the adjoint contributions of the
two blocks.  Any stacked vector that does not consist of exactly two blocks
is dimensionally incompatible; that branch returns the empty vector and is
proved unreachable in the solver runs. -/
def KbroadcastAdj : List (List ℚ) → List ℚ
  | [y1, y2] => vadd y1 (gradientAdj y2)
  | _ => []

/-- Blockwise diagonal scaling: block `i` is multiplied by `scales_i`.  The
script's `preconditioner_dual` is `applyDiag [1, 1/L^2]`. -/
def applyDiag (scales : List ℚ) (y : List (List ℚ)) : List (List ℚ) :=
  List.zipWith vsmul scales y

/-- The script's unpreconditioned solver run (lines 117-120): `K` the
broadcast operator, dual scaling by the scalar `sigma`, primal proximal the
non-negativity projection, dual proximal the combination of the l2 data-fit
proximal (on the identity block) and the l1 proximal (on the gradient
block), in the order of the blocks of `K`. -/
def scriptProblem (n : Nat) (g : List ℚ) (lam tau sigma : ℚ) :
    CPProblem (List ℚ) (List (List ℚ)) :=
  ⟨listOps n, stackOps n, Kbroadcast, KbroadcastAdj,
   fun y => y.map (vsmul sigma), tau, sigma,
   proximal_nonnegativity,
   combine_proximals [prox_convconj_l2 g, prox_convconj_l1 lam]⟩

/-- The script's preconditioned solver run (lines 130-142): as
`scriptProblem`, but the dual scaling is the diagonal preconditioner
`DiagonalOperator(I, 1/L^2 * I)` in place of the scalar `sigma`. -/
def scriptProblemPrecon (n : Nat) (g : List ℚ) (lam tau sigma L : ℚ) :
    CPProblem (List ℚ) (List (List ℚ)) :=
  ⟨listOps n, stackOps n, Kbroadcast, KbroadcastAdj,
   applyDiag [1, 1 / L ^ 2], tau, sigma,
   proximal_nonnegativity,
   combine_proximals [prox_convconj_l2 g, prox_convconj_l1 lam]⟩

/-- A stacked dual vector is well-shaped when it consists of exactly two
blocks of length `n` — the shape of `K`'s range and of the combined dual
proximal's domain. -/
def stackShapeOk (n : Nat) (y : List (List ℚ)) : Prop :=
  ∃ y1 y2, y = [y1, y2] ∧ y1.length = n ∧ y2.length = n

/-- A solver state is well-shaped when the primal iterates have length `n`
and the dual iterate is a well-shaped stacked vector. -/
def stateShapeOk (n : Nat) (s : CPState (List ℚ) (List (List ℚ))) : Prop :=
  s.x.length = n ∧ s.xbar.length = n ∧ stackShapeOk n s.y

/-! Helper lemmas. -/

theorem vadd_length (a b : List ℚ) : (vadd a b).length = min a.length b.length := by
  simp [vadd]

theorem vsub_length (a b : List ℚ) : (vsub a b).length = min a.length b.length := by
  simp [vsub]

theorem vsmul_length (c : ℚ) (a : List ℚ) : (vsmul c a).length = a.length := by
  simp [vsmul]

theorem gradientOp_length : ∀ x : List ℚ, (gradientOp x).length = x.length
  | [] => rfl
  | [_] => rfl
  | a :: b :: rest => by
    simp only [gradientOp, List.length_cons]
    simp [gradientOp_length (b :: rest)]

theorem gradientAdj_length (y : List ℚ) : (gradientAdj y).length = y.length := by
  simp [gradientAdj]

theorem proximal_nonnegativity_length (x : List ℚ) (st : ℚ) :
    (proximal_nonnegativity x st).length = x.length := by
  simp [proximal_nonnegativity]

theorem prox_convconj_l2_length (g y : List ℚ) (st : ℚ) :
    (prox_convconj_l2 g y st).length = min y.length g.length := by
  simp [prox_convconj_l2]

theorem prox_convconj_l1_length (lam : ℚ) (y : List ℚ) (st : ℚ) :
    (prox_convconj_l1 lam y st).length = y.length := by
  simp [prox_convconj_l1]

theorem cpRun_eq_iterate {X Y : Type} (P : CPProblem X Y) :
    ∀ (n : Nat) (s : CPState X Y), cpRun P s n = (cpStep P)^[n] s
  | 0, _ => rfl
  | n + 1, s => by
    rw [cpRun, cpRun_eq_iterate P n (cpStep P s), Function.iterate_succ_apply]

theorem vadd_one_smul_sub : ∀ a b : List ℚ, vadd a (vsmul 1 (vsub a b)) = vsub (vsmul 2 a) b
  | [], _ => rfl
  | _ :: _, [] => rfl
  | a :: as, b :: bs => by
    simp only [vadd, vsub, vsmul, List.map_cons, List.zipWith_cons_cons]
    refine congrArg₂ _ (by ring) ?_
    exact vadd_one_smul_sub as bs

/-! Claim theorems. -/

/-- C4: running the solver with `n_iter = 0` performs zero iterations and
returns the initial vector unchanged. -/
theorem chambolle_pock_solver_zero_iter {X Y : Type} (P : CPProblem X Y) (x0 : X) :
    chambolle_pock_solver P x0 0 = x0 := rfl

/-- C5: the combined proximal operator built from `[p1, p2]` applied to a
stacked vector `(a, b)` with step `s` equals `(p1 a s, p2 b s)` — each block
is transformed independently, with no cross-block coupling. -/
theorem combine_proximals_blockwise (p1 p2 : List ℚ → ℚ → List ℚ)
    (a b : List ℚ) (s : ℚ) :
    combine_proximals [p1, p2] [a, b] s = [p1 a s, p2 b s] := rfl

/-- C6: `proximal_nonnegativity` yields a vector all of whose entries are
non-negative for every input and step size, and is a no-op on input whose
entries are already non-negative. -/
theorem proximal_nonnegativity_spec :
    (∀ (x : List ℚ) (st : ℚ), ∀ a ∈ proximal_nonnegativity x st, 0 ≤ a) ∧
    (∀ (x : List ℚ) (st : ℚ), (∀ a ∈ x, 0 ≤ a) → proximal_nonnegativity x st = x) := by
  constructor
  · intro x st a ha
    simp only [proximal_nonnegativity, List.mem_map] at ha
    obtain ⟨t, -, rfl⟩ := ha
    exact le_max_right t 0
  · intro x st hx
    simp only [proximal_nonnegativity]
    conv_rhs => rw [← List.map_id x]
    refine List.map_congr_left ?_
    intro a ha
    simpa using max_eq_left (hx a ha)

/-- Witness for C6 at concrete inputs: the no-op clause on the non-negative
vector `[0, 2]`, and the non-negativity clause at the entry `1` of the
clipped vector `proximal_nonnegativity [1, -2, 3] 1`. -/
theorem proximal_nonnegativity_spec_witness :
    proximal_nonnegativity [0, 2] 1 = [0, 2] ∧ (0 : ℚ) ≤ 1 :=
  ⟨proximal_nonnegativity_spec.2 [0, 2] 1 (by decide),
   proximal_nonnegativity_spec.1 [1, -2, 3] 1 1 (by decide)⟩

/-- C3: the solver starts from `y = 0`, `x = x0`, `x_bar = x0`, performs
exactly `n` iterations of `cpStep` (no convergence-based early stop), and
each iteration computes the dual update
`y ← prox_dual(y + (sigma or preconditioner_dual)(K x_bar), step=sigma)`,
then the primal update `x ← prox_primal(x - tau * K^T y, step=tau)`, then
the over-relaxation `x_bar ← x_new + 1 * (x_new - x)`; on rational vectors
the over-relaxation formula coincides with `x_bar = 2 * x_new - x`. -/
theorem chambolle_pock_solver_iteration_spec {X Y : Type}
    (P : CPProblem X Y) (x0 : X) (n : Nat) :
    cpInit P x0 = ⟨x0, P.YOps.zero, x0⟩ ∧
    chambolle_pock_solver P x0 n = ((cpStep P)^[n] (cpInit P x0)).x ∧
    (∀ s : CPState X Y, (cpStep P s).y
        = P.proxDual (P.YOps.add s.y (P.dualScale (P.K s.xbar))) P.sigma) ∧
    (∀ s : CPState X Y, (cpStep P s).x
        = P.proxPrimal (P.XOps.sub s.x (P.XOps.smul P.tau (P.Kadj (cpStep P s).y))) P.tau) ∧
    (∀ s : CPState X Y, (cpStep P s).xbar
        = P.XOps.add (cpStep P s).x (P.XOps.smul 1 (P.XOps.sub (cpStep P s).x s.x))) ∧
    (∀ a b : List ℚ, vadd a (vsmul 1 (vsub a b)) = vsub (vsmul 2 a) b) := by
  refine ⟨rfl, ?_, fun s => rfl, fun s => rfl, fun s => rfl, vadd_one_smul_sub⟩
  unfold chambolle_pock_solver
  rw [cpRun_eq_iterate]

/-- C7: the callback is pure instrumentation — the solver state reached after
any number of iterations is the same with and without the logging callback,
and in particular the final primal iterate returned by the logged solver
equals the one returned by the plain solver. -/
theorem callback_does_not_affect_solver {X Y A : Type}
    (P : CPProblem X Y) (f : X → A) (x0 : X) (n : Nat) :
    (chambolle_pock_solver_logged P f x0 n).1 = chambolle_pock_solver P x0 n ∧
    (∀ (s : CPState X Y) (acc : List A), (cpRunLog P f s acc n).1 = cpRun P s n) := by
  have key : ∀ (m : Nat) (s : CPState X Y) (acc : List A),
      (cpRunLog P f s acc m).1 = cpRun P s m := by
    intro m
    induction m with
    | zero => intro s acc; rfl
    | succ k ih => intro s acc; rw [cpRunLog, cpRun]; exact ih _ _
  exact ⟨congrArg CPState.x (key n _ _), key n⟩

/-- C8: the power-method norm estimator and the solver are deterministic
functions of their arguments — two runs with identical inputs (including the
start vector of the norm estimation and the iteration counts) produce
identical outputs. -/
theorem power_and_solver_deterministic {V W X Y : Type}
    (ops : VecOps V) (ap : V → W) (adj : W → V) (nrmV : V → ℚ) (nrmW : W → ℚ)
    (n n' : Nat) (v v' : V) (P : CPProblem X Y) (x0 x0' : X) (m m' : Nat)
    (hn : n = n') (hv : v = v') (hx : x0 = x0') (hm : m = m') :
    power_method_opnorm ops ap adj nrmV nrmW n v
      = power_method_opnorm ops ap adj nrmV nrmW n' v' ∧
    chambolle_pock_solver P x0 m = chambolle_pock_solver P x0' m' := by
  subst hn; subst hv; subst hx; subst hm
  exact ⟨rfl, rfl⟩

/-- Witness for C8 at concrete inputs: two identical runs of the estimator on
the identity operator over `ℚ` and two identical three-iteration solver runs
agree. -/
theorem power_and_solver_deterministic_witness :
    power_method_opnorm ⟨(· + ·), (· - ·), (· * ·), 0⟩ id id id id 2 (1 : ℚ)
      = power_method_opnorm ⟨(· + ·), (· - ·), (· * ·), 0⟩ id id id id 2 (1 : ℚ) ∧
    chambolle_pock_solver
        ⟨⟨(· + ·), (· - ·), (· * ·), 0⟩, ⟨(· + ·), (· - ·), (· * ·), 0⟩,
         id, id, id, 1, 1, fun x _ => x, fun y _ => y⟩ (1 : ℚ) 3
      = chambolle_pock_solver
        ⟨⟨(· + ·), (· - ·), (· * ·), 0⟩, ⟨(· + ·), (· - ·), (· * ·), 0⟩,
         id, id, id, 1, 1, fun x _ => x, fun y _ => y⟩ (1 : ℚ) 3 :=
  power_and_solver_deterministic _ _ _ _ _ 2 2 1 1 _ 1 1 3 3 rfl rfl rfl rfl

/-- C2: for the unpreconditioned run, with `tau = sigma = 1/(op_norm_identity
+ op_norm_gradient)` and `||K||^2 = 1 + ||gradient||^2`, the convergence
condition `tau * sigma * ||K||^2 < 1` holds whenever
`op_norm_gradient >= ||gradient|| > 0`. -/
theorem unprecon_stepsize_constraint (gradNorm L : ℚ)
    (hg : 0 < gradNorm) (hgL : gradNorm ≤ L) :
    tauOf L * tauOf L * KnormSq gradNorm < 1 := by
  have hL : (0 : ℚ) < 1 + L := by linarith
  unfold tauOf op_norm_identity KnormSq
  rw [div_mul_div_comm, one_mul, div_mul_eq_mul_div, one_mul,
    div_lt_one (by positivity)]
  nlinarith [sq_nonneg (L - gradNorm), sq_nonneg gradNorm]

/-- Witness for C2 at the concrete values `||gradient|| = 1`,
`op_norm_gradient = 1`: the product is `1/2 < 1`. -/
theorem unprecon_stepsize_constraint_witness :
    tauOf 1 * tauOf 1 * KnormSq 1 < 1 :=
  unprecon_stepsize_constraint 1 1 (by norm_num) le_rfl

/-- C1: the preconditioned run violates the step-size constraint that the
spec and the code comment at line 135 require.  With `tau = sigma = 1` and
the script's preconditioner, the constrained quantity at the basis vector
`x = (1, 0, 0)` equals `1 + 1/L^2`, which is not below `||x||^2 = 1` for any
gradient norm estimate `L > 0`, so the constraint
`||preconditioner_dual^(1/2) * K * tau^(1/2)||^2 * sigma < 1` fails. -/
theorem precon_constraint_violated (L : ℚ) (hL : 0 < L) :
    1 * 1 * preconKnormSq L [1, 0, 0] = 1 + 1 / L ^ 2 ∧
    normSq [1, 0, 0] = 1 ∧
    ¬ (1 * 1 * preconKnormSq L [1, 0, 0] < normSq [1, 0, 0]) ∧
    ¬ preconStepConstraint L 1 1 := by
  have hL2 : (0 : ℚ) < L ^ 2 := by positivity
  have hval : preconKnormSq L [1, 0, 0] = 1 + 1 / L ^ 2 := by
    simp [preconKnormSq, normSq, gradientOp]
  have hns : normSq [1, 0, 0] = (1 : ℚ) := by simp [normSq]
  have hnotlt : ¬ (1 * 1 * preconKnormSq L [1, 0, 0] < normSq [1, 0, 0]) := by
    rw [hval, hns, one_mul, one_mul]
    have : (0 : ℚ) < 1 / L ^ 2 := by positivity
    linarith
  refine ⟨by rw [hval, one_mul, one_mul], hns, hnotlt, fun hc => hnotlt ?_⟩
  exact hc [1, 0, 0] (by rw [hns]; norm_num)

/-- Witness for C1 at the concrete estimate `L = 2`: the preconditioned
step-size constraint of the script fails. -/
theorem precon_constraint_violated_witness : ¬ preconStepConstraint 2 1 1 :=
  (precon_constraint_violated 2 (by norm_num)).2.2.2

theorem scriptStep_shape (n : Nat) (g : List ℚ) (lam tau sigma : ℚ)
    (hg : g.length = n) (s : CPState (List ℚ) (List (List ℚ)))
    (hs : stateShapeOk n s) :
    stateShapeOk n (cpStep (scriptProblem n g lam tau sigma) s) := by
  obtain ⟨hx, hxbar, y1, y2, hy, h1, h2⟩ := hs
  simp only [cpStep, scriptProblem, stackOps, listOps, Kbroadcast, combine_proximals,
    KbroadcastAdj, hy, List.map_cons, List.map_nil, List.zipWith_cons_cons,
    List.zipWith_nil_right, List.zipWith_nil_left, stateShapeOk, stackShapeOk]
  refine ⟨?_, ?_, _, _, rfl, ?_, ?_⟩ <;>
    simp [vadd_length, vsub_length, vsmul_length, gradientOp_length, gradientAdj_length,
      proximal_nonnegativity_length, prox_convconj_l2_length, prox_convconj_l1_length,
      hx, hxbar, h1, h2, hg]

theorem scriptStepPrecon_shape (n : Nat) (g : List ℚ) (lam tau sigma L : ℚ)
    (hg : g.length = n) (s : CPState (List ℚ) (List (List ℚ)))
    (hs : stateShapeOk n s) :
    stateShapeOk n (cpStep (scriptProblemPrecon n g lam tau sigma L) s) := by
  obtain ⟨hx, hxbar, y1, y2, hy, h1, h2⟩ := hs
  simp only [cpStep, scriptProblemPrecon, stackOps, listOps, Kbroadcast, combine_proximals,
    KbroadcastAdj, applyDiag, hy, List.map_cons, List.map_nil, List.zipWith_cons_cons,
    List.zipWith_nil_right, List.zipWith_nil_left, stateShapeOk, stackShapeOk]
  refine ⟨?_, ?_, _, _, rfl, ?_, ?_⟩ <;>
    simp [vadd_length, vsub_length, vsmul_length, gradientOp_length, gradientAdj_length,
      proximal_nonnegativity_length, prox_convconj_l2_length, prox_convconj_l1_length,
      hx, hxbar, h1, h2, hg]

theorem scriptInit_shape (n : Nat) (g : List ℚ) (lam tau sigma : ℚ)
    (x0 : List ℚ) (hx0 : x0.length = n) :
    stateShapeOk n (cpInit (scriptProblem n g lam tau sigma) x0) :=
  ⟨hx0, hx0, _, _, rfl, by simp [stackOps, listOps], by simp [stackOps, listOps]⟩

theorem scriptInitPrecon_shape (n : Nat) (g : List ℚ) (lam tau sigma L : ℚ)
    (x0 : List ℚ) (hx0 : x0.length = n) :
    stateShapeOk n (cpInit (scriptProblemPrecon n g lam tau sigma L) x0) :=
  ⟨hx0, hx0, _, _, rfl, by simp [stackOps, listOps], by simp [stackOps, listOps]⟩

theorem scriptRun_shape (n : Nat) (g : List ℚ) (lam tau sigma : ℚ)
    (hg : g.length = n) :
    ∀ (k : Nat) (s : CPState (List ℚ) (List (List ℚ))), stateShapeOk n s →
      stateShapeOk n (cpRun (scriptProblem n g lam tau sigma) s k)
  | 0, _, hs => hs
  | k + 1, s, hs =>
    scriptRun_shape n g lam tau sigma hg k _ (scriptStep_shape n g lam tau sigma hg s hs)

theorem scriptRunPrecon_shape (n : Nat) (g : List ℚ) (lam tau sigma L : ℚ)
    (hg : g.length = n) :
    ∀ (k : Nat) (s : CPState (List ℚ) (List (List ℚ))), stateShapeOk n s →
      stateShapeOk n (cpRun (scriptProblemPrecon n g lam tau sigma L) s k)
  | 0, _, hs => hs
  | k + 1, s, hs =>
    scriptRunPrecon_shape n g lam tau sigma L hg k _
      (scriptStepPrecon_shape n g lam tau sigma L hg s hs)

/-- C10: in the script's configuration the range of
`K = BroadcastOperator(identity, gradient)` consists of well-shaped stacked
vectors (two blocks of the space's dimension), the combined dual proximal of
both runs is `combine_proximals` of the l2 data-fit proximal on the identity
block and the l1 proximal on the gradient block — matching `K`'s block order
— and every iterate of both solver runs stays well-shaped, so every operator
and proximal application is dimensionally compatible and the
shape-mismatch branch (`KbroadcastAdj`'s catch-all) is never taken. -/
theorem script_shapes_compatible (n : Nat) (g x0 : List ℚ) (lam tau sigma L : ℚ)
    (hg : g.length = n) (hx0 : x0.length = n) :
    (∀ x : List ℚ, x.length = n → stackShapeOk n (Kbroadcast x)) ∧
    ((scriptProblem n g lam tau sigma).proxDual
        = combine_proximals [prox_convconj_l2 g, prox_convconj_l1 lam]) ∧
    ((scriptProblemPrecon n g lam tau sigma L).proxDual
        = combine_proximals [prox_convconj_l2 g, prox_convconj_l1 lam]) ∧
    (∀ k : Nat, stateShapeOk n
        (cpRun (scriptProblem n g lam tau sigma)
          (cpInit (scriptProblem n g lam tau sigma) x0) k)) ∧
    (∀ k : Nat, stateShapeOk n
        (cpRun (scriptProblemPrecon n g lam tau sigma L)
          (cpInit (scriptProblemPrecon n g lam tau sigma L) x0) k)) := by
  refine ⟨?_, rfl, rfl, ?_, ?_⟩
  · intro x hxn
    exact ⟨x, gradientOp x, rfl, hxn, by rw [gradientOp_length, hxn]⟩
  · intro k
    exact scriptRun_shape n g lam tau sigma hg k _
      (scriptInit_shape n g lam tau sigma x0 hx0)
  · intro k
    exact scriptRunPrecon_shape n g lam tau sigma L hg k _
      (scriptInitPrecon_shape n g lam tau sigma L x0 hx0)

/-- Witness for C10 at a concrete configuration: dimension `2`, data
`g = [1, 2]`, start `x0 = [0, 0]`, after one iteration of the
unpreconditioned run the state is still well-shaped. -/
theorem script_shapes_compatible_witness :
    stateShapeOk 2 (cpRun (scriptProblem 2 [1, 2] (1/50) (1/2) (1/2))
      (cpInit (scriptProblem 2 [1, 2] (1/50) (1/2) (1/2)) [0, 0]) 1) :=
  (script_shapes_compatible 2 [1, 2] [0, 0] (1/50) (1/2) (1/2) 3 rfl rfl).2.2.2.1 1

end CPDenoise
